import Mathlib

/- Rational arithmetic is evaluated inside concrete witnesses; restore the
default transparency of the operations so decision procedures can reduce
them. -/
attribute [local semireducible] Rat.add Rat.mul Rat.inv Rat.sub

/-!
Shallow embedding of the reel-slot round engine:
symbol ids and grids, the env math-spec resolver, the weighted grid
generator with its bias passes, the hold-aware spin composer, the
payline/scatter evaluator, bonus accounting, the generic state machine and
the slot scene's spin-request / hold-update logic.

JS numbers are modelled as rationals; a JS value that may be `undefined`
is modelled as an `Option` (so `===` against a symbol literal is equality
with `some`); the shared sequential RNG is a stream of rationals consumed
in program order.
-/

namespace Slot

/-- The closed symbol enumeration from SymbolIds.ts. -/
inductive SymbolId
  | A | K | Q | J | T | CROWN | SKULL | PARROT | CANNON | CHEST_GOLD | COMPASS | WILD | SCATTER
deriving DecidableEq, Repr, Fintype

/-- A grid is a list of reel columns, each a list of cells ([reel][row]). -/
abbrev Grid := List (List SymbolId)

/-- Cell read `grid[r]?.[y]`; `none` models the JS `undefined` of an
out-of-range access. -/
def cellO (g : Grid) (r y : ℕ) : Option SymbolId :=
  (g[r]?).bind (fun col => col[y]?)

/-- JS `Math.round`: round half toward positive infinity. -/
def jsRound (q : ℚ) : ℤ := ⌊q + 1/2⌋

/-- JS `x | 0` on a real value: truncation toward zero. -/
def jsTrunc (q : ℚ) : ℤ := if 0 ≤ q then ⌊q⌋ else -⌊-q⌋

/-- EnvMathSpec.ts: the resolved math configuration.  Numeric fields are
JS numbers (rationals); the paytable and scatter paytable are total
functions, absorbing the `?? 0` lookups of the evaluator. -/
structure EnvMathSpec where
  reels : ℚ
  rows : ℚ
  betMin : ℚ
  betMax : ℚ
  betStep : ℚ
  hitRate : ℚ
  bonusTargetFrequency : ℚ
  symbols : List SymbolId
  weights : SymbolId → ℚ
  wildSubstitutes : Bool
  wildPaysItself : Bool
  scatterSymbol : SymbolId
  bonusEnabled : Bool
  bonusTriggerCount : ℚ
  scatterPays : Bool
  scatterPay : ℕ → ℚ
  paytable : SymbolId → ℕ → ℚ
  freeSpinsAward : ℚ
  freeSpinsWinMult : ℚ
  freeSpinsRetriggerEnabled : Bool
  freeSpinsRetriggerCount : ℚ
  freeSpinsRetriggerAward : ℚ
  bigWinThresholdXBet : ℚ
  rngSeed : ℚ
  qaForceBonus : Bool
  qaForceWin : Bool
  qaForceSymbol : Option SymbolId
  qaLog : Bool

/-- paylines.ts: a payline is an id plus one row per reel. -/
structure Payline where
  id : ℕ
  rows : List ℕ
deriving DecidableEq, Repr

/-- The seven canonical 5x3 paylines (paylines.ts). -/
def PAYLINES_5X3 : List Payline :=
  [⟨1, [1, 1, 1, 1, 1]⟩,
   ⟨2, [0, 0, 0, 0, 0]⟩,
   ⟨3, [2, 2, 2, 2, 2]⟩,
   ⟨4, [0, 1, 2, 1, 0]⟩,
   ⟨5, [2, 1, 0, 1, 2]⟩,
   ⟨6, [0, 0, 1, 0, 0]⟩,
   ⟨7, [2, 2, 1, 2, 2]⟩]

/-- A recorded cell position; `row` is `path[r]?` as pushed by the
evaluator (an `Option` because the TS non-null assertion can in principle
see an out-of-range path index). -/
structure CellPos where
  reel : ℕ
  row : Option ℕ
deriving DecidableEq, Repr

/-- The symbol a recorded position points at in a grid. -/
def posCell (g : Grid) (p : CellPos) : Option SymbolId :=
  p.row.bind (fun y => cellO g p.reel y)

/-- evaluators.ts WinLine. `symbol` is an `Option` because the recorded
base is the JS value that may be `undefined` on degenerate grids. -/
structure WinLine where
  lineId : ℕ
  pathRows : List ℕ
  fromReel : ℕ
  toReel : ℕ
  symbol : Option SymbolId
  count : ℕ
  usedWild : Bool
  amount : ℚ
  positions : List CellPos
deriving DecidableEq, Repr

/-- evaluators.ts EvaluatedSpin. -/
structure EvaluatedSpin where
  winAmount : ℤ
  winLines : List WinLine
  scatterCount : ℕ
  scatterWinAmount : ℚ
  scatterPositions : List CellPos
  heldReelsNext : List Bool
deriving DecidableEq, Repr

/-- `symbols[r]` of the evaluator's per-line array: the grid cell on the
payline's path, `undefined` (`none`) for reel indices at or past the reel
count. -/
def lineSym (g : Grid) (path : List ℕ) (reels r : ℕ) : Option SymbolId :=
  if r < reels then (path[r]?).bind (fun ρ => cellO g r ρ) else none

/-- The forward scan that resolves a leading-WILD line's base symbol
(evaluators.ts lines 68-78): stop at SCATTER keeping WILD, otherwise the
first non-WILD value (which may be `undefined`). -/
def findBaseAux (sym : ℕ → Option SymbolId) : List ℕ → Option SymbolId
  | [] => some .WILD
  | r :: rest =>
    let s := sym r
    if s = some .SCATTER then some .WILD
    else if s ≠ some .WILD then s
    else findBaseAux sym rest

/-- The left-to-right match loop (evaluators.ts lines 85-106) over the
given reel indices: returns the match count, the used-wild flag and the
recorded positions. -/
def scanLineAux (sym : ℕ → Option SymbolId) (path : List ℕ) (base : Option SymbolId)
    (wildSub : Bool) : List ℕ → ℕ × Bool × List CellPos
  | [] => (0, false, [])
  | r :: rest =>
    let s := sym r
    if s = some .SCATTER then (0, false, [])
    else if s = base then
      let acc := scanLineAux sym path base wildSub rest
      (acc.1 + 1, acc.2.1 || (decide (s = some .WILD) && decide (base = some .WILD)),
        ⟨r, path[r]?⟩ :: acc.2.2)
    else if wildSub && decide (s = some .WILD) && decide (base ≠ some .WILD) then
      let acc := scanLineAux sym path base wildSub rest
      (acc.1 + 1, true, ⟨r, path[r]?⟩ :: acc.2.2)
    else (0, false, [])

/-- Paytable lookup `(math.paytable)?.[baseSym]?.[c] ?? 0` with a possibly
`undefined` base. -/
def lineMult (m : EnvMathSpec) (base : Option SymbolId) (c : ℕ) : ℚ :=
  match base with
  | some b => m.paytable b c
  | none => 0

/-- The line's base symbol: the leftmost symbol, or for a leading WILD
the result of the forward scan. -/
def lineBase (g : Grid) (line : Payline) : Option SymbolId :=
  let sym := lineSym g line.rows g.length
  if sym 0 = some .WILD then findBaseAux sym (List.range' 1 (g.length - 1)) else sym 0

/-- One payline's evaluation (the body of the payline loop in
evaluators.ts): `none` when the line records no win. -/
def evalLine (g : Grid) (bet : ℚ) (m : EnvMathSpec) (line : Payline) : Option WinLine :=
  let sym := lineSym g line.rows g.length
  if sym 0 = some .SCATTER then none
  else
    let base := lineBase g line
    if sym 0 = some .WILD ∧ base = some .WILD ∧ m.wildPaysItself = false then none
    else
      let scanned := scanLineAux sym line.rows base m.wildSubstitutes (List.range g.length)
      if 3 ≤ scanned.1 then
        let c := min 5 scanned.1
        let amount := bet * lineMult m base c
        if 0 < amount then
          some ⟨line.id, line.rows, 0, scanned.1 - 1, base, c, scanned.2.1, amount, scanned.2.2⟩
        else none
      else none

/-- evaluators.ts evaluateGrid: scatter counting, the payline loop, the
scatter pay, the single rounding of the total, and the derived next hold
mask. -/
def evaluateGrid (g : Grid) (bet : ℚ) (m : EnvMathSpec) (inFreeSpins : Bool) : EvaluatedSpin :=
  let reels := g.length
  let rows := (g[0]?.getD []).length
  let scatterPositions : List CellPos :=
    (List.range reels).flatMap (fun r =>
      (List.range rows).filterMap (fun y =>
        if cellO g r y = some m.scatterSymbol then some ⟨r, some y⟩ else none))
  let scatterCount := scatterPositions.length
  let acc := PAYLINES_5X3.foldl
    (fun acc line =>
      match evalLine g bet m line with
      | some wl => (acc.1 + wl.amount, acc.2 ++ [wl])
      | none => acc)
    ((0 : ℚ), ([] : List WinLine))
  let scatterWinAmount :=
    if m.scatterPays = true ∧ 3 ≤ scatterCount then bet * m.scatterPay (min 5 scatterCount) else 0
  let total := (acc.1 + scatterWinAmount) * (if inFreeSpins then m.freeSpinsWinMult else 1)
  let heldReelsNext :=
    (List.range reels).map (fun r =>
      (List.range rows).any (fun y => cellO g r y == some .WILD))
  ⟨jsRound total, acc.2, scatterCount, scatterWinAmount, scatterPositions, heldReelsNext⟩

/-! The env math-spec resolver (EnvMathSpec.ts).  The raw configuration is
a map from key to an optional string value. -/

/-- Raw configuration input: env key to optional string value. -/
abbrev Env := String → Option String

/-- Whitespace for JS string trimming (the blanks that occur in env
values). -/
def isWsp (c : Char) : Bool := c = ' ' || c = '\t' || c = '\n' || c = '\r'

/-- JS `String.prototype.trim` over the character list. -/
def trimChars (l : List Char) : List Char :=
  ((l.dropWhile isWsp).reverse.dropWhile isWsp).reverse

/-- JS `trim()` on a string. -/
def trimStr (s : String) : String := ⟨trimChars s.data⟩

/-- ASCII upper-casing of one character (JS `toUpperCase` on env
tokens). -/
def charUpper (c : Char) : Char :=
  if 'a' ≤ c ∧ c ≤ 'z' then Char.ofNat (c.toNat - 32) else c

/-- ASCII lower-casing of one character (JS `toLowerCase`). -/
def charLower (c : Char) : Char :=
  if 'A' ≤ c ∧ c ≤ 'Z' then Char.ofNat (c.toNat + 32) else c

/-- JS `toUpperCase()` on a string. -/
def upperStr (s : String) : String := ⟨s.data.map charUpper⟩

/-- JS `toLowerCase()` on a string. -/
def lowerStr (s : String) : String := ⟨s.data.map charLower⟩

/-- JS `split(',')` accumulator. -/
def splitCommaAux : List Char → List Char → List String
  | [], acc => [⟨acc.reverse⟩]
  | c :: rest, acc =>
    if c = ',' then (⟨acc.reverse⟩ : String) :: splitCommaAux rest []
    else splitCommaAux rest (c :: acc)

/-- JS `split(',')`. -/
def splitComma (s : String) : List String := splitCommaAux s.data []

/-- Digits of a decimal literal to a natural number. -/
def parseDigits : List Char → ℕ → ℕ
  | [], acc => acc
  | c :: rest, acc => parseDigits rest (acc * 10 + (c.toNat - '0'.toNat))

/-- Value of the regex match `-?\d+(\.\d+)?` starting at `cs` (whose head
is a digit), with an already-consumed optional minus sign. -/
def matchNumAt (neg : Bool) (cs : List Char) : ℚ :=
  let ds := cs.takeWhile Char.isDigit
  let rest := cs.dropWhile Char.isDigit
  let intPart : ℕ := parseDigits ds 0
  let frac : ℕ × ℕ :=
    match rest with
    | '.' :: cs2 =>
      let fs := cs2.takeWhile Char.isDigit
      if fs = [] then (0, 0) else (parseDigits fs 0, fs.length)
    | _ => (0, 0)
  let mag : ℚ := (intPart : ℚ) + (frac.1 : ℚ) / ((10 : ℚ) ^ frac.2)
  if neg then -mag else mag

/-- Leftmost match of `-?\d+(\.\d+)?` in a character list, as the regex
engine finds it (a minus participates only when a digit follows). -/
def firstNumber : List Char → Option ℚ
  | [] => none
  | c :: rest =>
    if c.isDigit then some (matchNumAt false (c :: rest))
    else if c = '-' && (match rest with | c2 :: _ => c2.isDigit | [] => false) then
      some (matchNumAt true rest)
    else firstNumber rest

/-- EnvMathSpec.ts `num`: tolerant numeric parsing — the first signed
decimal found in the trimmed string, else the default. -/
def num (v : Option String) (dflt : ℚ) : ℚ :=
  match v with
  | none => dflt
  | some s =>
    let t := trimStr s
    if t = "" then dflt
    else
      match firstNumber t.data with
      | none => dflt
      | some q => q

/-- EnvMathSpec.ts `bool`: 1/true/yes/on (case-insensitive) are true;
missing or empty keeps the default. -/
def bool (v : Option String) (dflt : Bool) : Bool :=
  match v with
  | none => dflt
  | some s =>
    if s = "" then dflt
    else
      let t := lowerStr (trimStr s)
      t == "1" || t == "true" || t == "yes" || t == "on"

/-- EnvMathSpec.ts `mapEnvSymbol`: case-insensitive alias table
(STAR is the deprecated scatter alias, 10 the deprecated ten). -/
def mapEnvSymbol (id : String) : Option SymbolId :=
  let u := upperStr id
  if u = "T" then some .T
  else if u = "A" then some .A
  else if u = "K" then some .K
  else if u = "Q" then some .Q
  else if u = "J" then some .J
  else if u = "STAR" then some .SCATTER
  else if u = "SCATTER" then some .SCATTER
  else if u = "WILD" then some .WILD
  else if u = "10" then some .T
  else if u = "CROWN" then some .CROWN
  else if u = "SKULL" then some .SKULL
  else if u = "PARROT" then some .PARROT
  else if u = "CANNON" then some .CANNON
  else if u = "CHEST_GOLD" then some .CHEST_GOLD
  else if u = "COMPASS" then some .COMPASS
  else none

/-- EnvMathSpec.ts `symList`: comma-separated aliases, unknown tokens
dropped; missing or empty input keeps the fallback. -/
def symList (v : Option String) (fallback : List SymbolId) : List SymbolId :=
  match v with
  | none => fallback
  | some s =>
    if s = "" then fallback
    else (((splitComma s).map trimStr).filter (fun x => x ≠ "")).filterMap mapEnvSymbol

/-- Key fragment of a symbol in env keys such as `PAY_A_3`. -/
def symName : SymbolId → String
  | .A => "A" | .K => "K" | .Q => "Q" | .J => "J" | .T => "T"
  | .CROWN => "CROWN" | .SKULL => "SKULL" | .PARROT => "PARROT"
  | .CANNON => "CANNON" | .CHEST_GOLD => "CHEST_GOLD" | .COMPASS => "COMPASS"
  | .WILD => "WILD" | .SCATTER => "SCATTER"

/-- Hard-coded paytable defaults of EnvMathSpec.ts (SCATTER has no line
paytable entry). -/
def defaultPay : SymbolId → ℕ → ℚ
  | .A, 3 => 1 | .A, 4 => 3 | .A, 5 => 8
  | .K, 3 => 1 | .K, 4 => 3 | .K, 5 => 8
  | .Q, 3 => 1 | .Q, 4 => 4 | .Q, 5 => 10
  | .J, 3 => 1 | .J, 4 => 4 | .J, 5 => 10
  | .T, 3 => 2 | .T, 4 => 6 | .T, 5 => 15
  | .CROWN, 3 => 2 | .CROWN, 4 => 6 | .CROWN, 5 => 16
  | .SKULL, 3 => 3 | .SKULL, 4 => 10 | .SKULL, 5 => 25
  | .PARROT, 3 => 3 | .PARROT, 4 => 10 | .PARROT, 5 => 25
  | .CANNON, 3 => 4 | .CANNON, 4 => 12 | .CANNON, 5 => 30
  | .CHEST_GOLD, 3 => 5 | .CHEST_GOLD, 4 => 15 | .CHEST_GOLD, 5 => 40
  | .COMPASS, 3 => 4 | .COMPASS, 4 => 12 | .COMPASS, 5 => 30
  | .WILD, 3 => 5 | .WILD, 4 => 20 | .WILD, 5 => 100
  | _, _ => 0

/-- Default scatter pay (used only when SCATTER_PAYS is on). -/
def defaultScatterPay : ℕ → ℚ
  | 3 => 2 | 4 => 10 | 5 => 50 | _ => 0

/-- Resolved line paytable: an env `PAY_<sym>_<count>` entry when present
and non-empty, else the hard-coded default; SCATTER has no entry. -/
def resolvedPaytable (env : Env) : SymbolId → ℕ → ℚ := fun s c =>
  if s = .SCATTER then 0
  else if c = 3 ∨ c = 4 ∨ c = 5 then
    match env ("PAY_" ++ symName s ++ "_" ++ toString c) with
    | some v => if v = "" then defaultPay s c else num (some v) 0
    | none => defaultPay s c
  else 0

/-- Resolved scatter paytable (PAY_SCATTER_* with deprecated PAY_STAR_*
fallback, then defaults). -/
def resolvedScatterPay (env : Env) : ℕ → ℚ := fun c =>
  if c = 3 ∨ c = 4 ∨ c = 5 then
    match (env ("PAY_SCATTER_" ++ toString c)).or (env ("PAY_STAR_" ++ toString c)) with
    | some v => if v = "" then defaultScatterPay c else num (some v) 0
    | none => defaultScatterPay c
  else 0

/-- The default symbol list of the resolver. -/
def defaultSymbols : List SymbolId :=
  [.A, .K, .Q, .J, .T, .CROWN, .SKULL, .PARROT, .CANNON, .CHEST_GOLD, .COMPASS, .WILD, .SCATTER]

/-- EnvMathSpec.ts loadEnvMathSpec: tolerant resolution of the whole math
spec from a raw env; never fails, substituting documented defaults. -/
def loadEnvMathSpec (env : Env) : EnvMathSpec where
  reels := num (env "REELS") 5
  rows := num (env "ROWS") 3
  betMin := num (env "BET_MIN") 10
  betMax := num (env "BET_MAX") 1000
  betStep := num (env "BET_STEP") 10
  hitRate := num (env "MATH_TARGET_HIT_RATE") (32/100)
  bonusTargetFrequency := num (env "BONUS_TARGET_FREQUENCY") (2/100)
  symbols := symList (env "SYMBOLS") defaultSymbols
  weights := fun s =>
    match s with
    | .A => num (env "W_A") 18
    | .K => num (env "W_K") 18
    | .Q => num (env "W_Q") 16
    | .J => num (env "W_J") 16
    | .T => num (env "W_T") 16
    | .CROWN => num (env "W_CROWN") 8
    | .SKULL => num (env "W_SKULL") 6
    | .PARROT => num (env "W_PARROT") 6
    | .CANNON => num (env "W_CANNON") 5
    | .CHEST_GOLD => num (env "W_CHEST_GOLD") 4
    | .COMPASS => num (env "W_COMPASS") 5
    | .SCATTER => num ((env "W_SCATTER").or (env "W_STAR")) 3
    | .WILD => num (env "W_WILD") 2
  wildSubstitutes := bool (env "WILD_SUBSTITUTES") true
  wildPaysItself := bool (env "WILD_PAYS_ITSELF") false
  scatterSymbol := (mapEnvSymbol ((env "BONUS_SCATTER_SYMBOL").getD "SCATTER")).getD .SCATTER
  bonusEnabled := bool (env "BONUS_ENABLED") true
  bonusTriggerCount := num (env "BONUS_TRIGGER_COUNT") 3
  scatterPays := bool (env "SCATTER_PAYS") false
  scatterPay := resolvedScatterPay env
  paytable := resolvedPaytable env
  freeSpinsAward := num (env "FREESPINS_AWARD") 5
  freeSpinsWinMult := num (env "FREESPINS_WIN_MULT") 1
  freeSpinsRetriggerEnabled := bool (env "FREESPINS_RETRIGGER_ENABLED") true
  freeSpinsRetriggerCount := num (env "FREESPINS_RETRIGGER_COUNT") 3
  freeSpinsRetriggerAward := num (env "FREESPINS_RETRIGGER_AWARD") 3
  bigWinThresholdXBet := num (env "BIG_WIN_THRESHOLD_XBET") 10
  rngSeed := num (env "RNG_SEED") 0
  qaForceBonus := bool (env "QA_FORCE_BONUS") false
  qaForceWin := bool (env "QA_FORCE_WIN") false
  qaForceSymbol := mapEnvSymbol ((env "QA_FORCE_SYMBOL").getD "")
  qaLog := bool (env "QA_LOG") false

/-- The spec's stated MathSpec invariant, written from the spec's words
(section 3): non-negative weights, a positive weight, ordered bet bounds,
step at least one. -/
def specMathInvariant (m : EnvMathSpec) : Prop :=
  (∀ s : SymbolId, 0 ≤ m.weights s) ∧ (∃ s : SymbolId, 0 < m.weights s) ∧
    m.betMin ≤ m.betMax ∧ 1 ≤ m.betStep

instance (m : EnvMathSpec) : Decidable (specMathInvariant m) := by
  unfold specMathInvariant; infer_instance

/-- The empty raw configuration (every key missing). -/
def emptyEnv : Env := fun _ => none

/-- The fully-default math spec. -/
def defaultSpec : EnvMathSpec := loadEnvMathSpec emptyEnv

/-! The weighted grid generator (SpinGenerator.ts).  The shared RNG is a
stream of rationals; each `rng()` call takes the head, in program order. -/

/-- The RNG collaborator: a stream of draws. -/
abbrev Rng := ℕ → ℚ

/-- One `rng()` call: the next draw and the remaining stream. -/
def Rng.next (s : Rng) : ℚ × Rng := (s 0, fun n => s (n + 1))

/-- The cumulative subtraction loop of pickWeightedSymbol:
`none` when the loop exhausts the symbol list with the remainder still
positive. -/
def pickLoop (w : SymbolId → ℚ) : List SymbolId → ℚ → Option SymbolId
  | [], _ => none
  | id :: rest, roll =>
    let roll' := roll - w id
    if roll' ≤ 0 then some id else pickLoop w rest roll'

/-- Total weight over the declared symbol order. -/
def totalWeight (m : EnvMathSpec) : ℚ :=
  m.symbols.foldl (fun acc s => acc + m.weights s) 0

/-- pickWeightedSymbol's value for a single uniform draw `u`: roulette
wheel selection, falling back to the literal `'A'` when the loop
exhausts. -/
def pickWeightedSymbolCore (m : EnvMathSpec) (u : ℚ) : SymbolId :=
  (pickLoop m.weights m.symbols (u * totalWeight m)).getD .A

/-- SpinGenerator.ts pickWeightedSymbol, consuming one draw. -/
def pickWeightedSymbol (m : EnvMathSpec) (rng : Rng) : SymbolId × Rng :=
  let d := rng.next
  (pickWeightedSymbolCore m d.1, d.2)

/-- One reel column of `rows` independent weighted samples, top to
bottom. -/
def fillColumn (m : EnvMathSpec) : ℕ → Rng → List SymbolId × Rng
  | 0, rng => ([], rng)
  | n + 1, rng =>
    let p := pickWeightedSymbol m rng
    let rest := fillColumn m n p.2
    (p.1 :: rest.1, rest.2)

/-- SpinGenerator.ts createWeightedGrid: reels columns left to right. -/
def createWeightedGrid (m : EnvMathSpec) : ℕ → ℕ → Rng → Grid × Rng
  | 0, _, rng => ([], rng)
  | r + 1, rows, rng =>
    let col := fillColumn m rows rng
    let rest := createWeightedGrid m r rows col.2
    (col.1 :: rest.1, rest.2)

/-- SpinGenerator.ts pickMatchCount: 82/16/2 weighted pick of 3, 4 or 5,
one draw. -/
def pickMatchCount (rng : Rng) : ℕ × Rng :=
  let d := rng.next
  let roll := d.1 * 100
  if roll - 82 ≤ 0 then (3, d.2)
  else if roll - 82 - 16 ≤ 0 then (4, d.2)
  else (5, d.2)

/-- Write one cell; out-of-range writes are dropped (indices stay in
range for every in-range RNG draw). -/
def setCell (g : Grid) (r y : ℕ) (s : SymbolId) : Grid :=
  match g[r]? with
  | some col => g.set r (col.set y s)
  | none => g

/-- The bounded retry loop picking a non-scatter non-wild symbol for a
forced win ('A' if ten draws fail). -/
def forcedSymLoop (m : EnvMathSpec) : ℕ → Rng → SymbolId × Rng
  | 0, rng => (.A, rng)
  | n + 1, rng =>
    let p := pickWeightedSymbol m rng
    if p.1 ≠ m.scatterSymbol ∧ p.1 ≠ .WILD then p else forcedSymLoop m n p.2

/-- SpinGenerator.ts applyForcedWinLine: pick a row, a match count and a
regular symbol, overwrite that many leftmost reels at the row. -/
def applyForcedWinLine (m : EnvMathSpec) (g : Grid) (rng : Rng) : Grid × Rng :=
  let reels := g.length
  let rows := (g[0]?.getD []).length
  let d := rng.next
  let row := (jsTrunc (d.1 * rows)).toNat
  let pc := pickMatchCount d.2
  let fs := forcedSymLoop m 10 pc.2
  let maxCount := min reels pc.1
  ((List.range maxCount).foldl (fun gg r => setCell gg r row fs.1) g, fs.2)

/-- Length of the run matching `first` over the given consecutive reel
indices of a row. -/
def matchRunLen (g : Grid) (ρ : ℕ) (first : SymbolId) : List ℕ → ℕ
  | [] => 0
  | r :: rest =>
    if cellO g r ρ = some first then 1 + matchRunLen g ρ first rest else 0

/-- SpinGenerator.ts pickDifferentNonScatter: up to `fuel` (20 in the
source) draws until different from `notThis` and not scatter; the
fallback is K for an excluded A, else A. -/
def pickDifferentNonScatter (m : EnvMathSpec) (notThis : SymbolId) : ℕ → Rng → SymbolId × Rng
  | 0, rng => ((if notThis = .A then .K else .A), rng)
  | n + 1, rng =>
    let p := pickWeightedSymbol m rng
    if p.1 ≠ m.scatterSymbol ∧ p.1 ≠ notThis then p
    else pickDifferentNonScatter m notThis n p.2

/-- One row of breakAccidentalWins: replace the third reel's cell when an
accidental 3+ run of a non-scatter symbol starts at reel 0.  (The `none`
head case is unreachable for rows below the first column's length.) -/
def breakRow (m : EnvMathSpec) (g : Grid) (ρ : ℕ) (rng : Rng) : Grid × Rng :=
  match cellO g 0 ρ with
  | none => (g, rng)
  | some first =>
    if first = m.scatterSymbol then (g, rng)
    else
      let count := 1 + matchRunLen g ρ first (List.range' 1 (g.length - 1))
      if 3 ≤ count then
        let p := pickDifferentNonScatter m first 20 rng
        (setCell g 2 ρ p.1, p.2)
      else (g, rng)

/-- The row loop of breakAccidentalWins. -/
def breakRowsGo (m : EnvMathSpec) : List ℕ → Grid → Rng → Grid × Rng
  | [], g, rng => (g, rng)
  | ρ :: rest, g, rng =>
    let st := breakRow m g ρ rng
    breakRowsGo m rest st.1 st.2

/-- SpinGenerator.ts breakAccidentalWins. -/
def breakAccidentalWins (m : EnvMathSpec) (g : Grid) (rng : Rng) : Grid × Rng :=
  breakRowsGo m (List.range ((g[0]?.getD []).length)) g rng

/-- SpinGenerator.ts countScatter. -/
def countScatter (g : Grid) (sc : SymbolId) : ℕ :=
  (g.map (fun col => col.countP (fun s => s == sc))).sum

/-- The bounded loop of applyForcedScatter (guard budget 200): convert
random non-scatter cells until the count reaches the desired one. -/
def forcedScatterGo (m : EnvMathSpec) (desired : ℚ) (rows : ℕ) :
    ℕ → Grid → ℕ → Rng → Grid × Rng
  | 0, g, _, rng => (g, rng)
  | fuel + 1, g, c, rng =>
    if (c : ℚ) < desired then
      let d1 := rng.next
      let d2 := d1.2.next
      let r := (jsTrunc (d1.1 * g.length)).toNat
      let y := (jsTrunc (d2.1 * rows)).toNat
      if cellO g r y ≠ some m.scatterSymbol then
        forcedScatterGo m desired rows fuel (setCell g r y m.scatterSymbol) (c + 1) d2.2
      else forcedScatterGo m desired rows fuel g c d2.2
    else (g, rng)

/-- SpinGenerator.ts applyForcedScatter. -/
def applyForcedScatter (m : EnvMathSpec) (g : Grid) (desired : ℚ) (rng : Rng) : Grid × Rng :=
  forcedScatterGo m desired ((g[0]?.getD []).length) 200 g (countScatter g m.scatterSymbol) rng

/-- The bounded loop of limitScatterBelow (guard budget 300): convert
random scatter cells to different non-scatter ones while at or above the
limit. -/
def limitScatterGo (m : EnvMathSpec) (limit : ℚ) (rows : ℕ) :
    ℕ → Grid → ℕ → Rng → Grid × Rng
  | 0, g, _, rng => (g, rng)
  | fuel + 1, g, c, rng =>
    if limit ≤ (c : ℚ) then
      let d1 := rng.next
      let d2 := d1.2.next
      let r := (jsTrunc (d1.1 * g.length)).toNat
      let y := (jsTrunc (d2.1 * rows)).toNat
      if cellO g r y = some m.scatterSymbol then
        let p := pickDifferentNonScatter m m.scatterSymbol 20 d2.2
        limitScatterGo m limit rows fuel (setCell g r y p.1) (c - 1) p.2
      else limitScatterGo m limit rows fuel g c d2.2
    else (g, rng)

/-- SpinGenerator.ts limitScatterBelow. -/
def limitScatterBelow (m : EnvMathSpec) (g : Grid) (limit : ℚ) (rng : Rng) : Grid × Rng :=
  let c := countScatter g m.scatterSymbol
  if (c : ℚ) < limit then (g, rng)
  else limitScatterGo m limit ((g[0]?.getD []).length) 300 g c rng

/-- SpinGenerator.ts GeneratedSpin. -/
structure GeneratedSpin where
  grid : Grid
  forcedWin : Bool
  forcedScatter : Bool

/-- SpinGenerator.ts generateSpin: the forced-scatter and forced-win
decisions (short-circuited by the QA flags, so a set flag consumes no
draw), the raw weighted grid, the QA symbol override, the forced-win or
run-breaking pass, and the scatter-count adjustment pass. -/
def generateSpin (rng : Rng) (m : EnvMathSpec) (reels rows : ℕ)
    (ovHitRate ovBonusFreq : Option ℚ) : GeneratedSpin × Rng :=
  let hitRate := ovHitRate.getD m.hitRate
  let bonusFreq := ovBonusFreq.getD m.bonusTargetFrequency
  let fs : Bool × Rng :=
    if m.qaForceBonus then (true, rng)
    else
      let d := rng.next
      (decide (d.1 < bonusFreq), d.2)
  let fw : Bool × Rng :=
    if m.qaForceWin then (true, fs.2)
    else
      let d := fs.2.next
      (decide (d.1 < hitRate), d.2)
  let raw := createWeightedGrid m reels rows fw.2
  let grid1 :=
    match m.qaForceSymbol with
    | some s => raw.1.map (fun col => col.map (fun _ => s))
    | none => raw.1
  let afterWin :=
    if fw.1 then applyForcedWinLine m grid1 raw.2
    else breakAccidentalWins m grid1 raw.2
  let afterScatter :=
    if fs.1 then applyForcedScatter m afterWin.1 m.bonusTriggerCount afterWin.2
    else limitScatterBelow m afterWin.1 m.bonusTriggerCount afterWin.2
  (⟨afterScatter.1, fw.1, fs.1⟩, afterScatter.2)

/-- SlotModel.ts: the model owns the math spec; its spin delegates to the
generator at the fixed 5x3 visual dimensions of SlotConfig. -/
structure SlotModel where
  math : EnvMathSpec

/-- SlotModel.spin. -/
def SlotModel.spin (model : SlotModel) (ovHitRate ovBonusFreq : Option ℚ) (rng : Rng) :
    Grid × Rng :=
  let gs := generateSpin rng model.math 5 3 ovHitRate ovBonusFreq
  (gs.1.grid, gs.2)

/-- The held-column merge of spinLogic.ts: for each reel of the fresh
grid, a held reel takes (a copy of) the previous grid's column.  The
index-shifted recursion mirrors the `for` loop. -/
def composeHeldGo (prev : Grid) (held : List Bool) : ℕ → Grid → Grid
  | _, [] => []
  | r, col :: rest =>
    (if held.getD r false then prev.getD r [] else col) :: composeHeldGo prev held (r + 1) rest

/-- spinLogic.ts spinGrid: always generate first (consuming RNG), then
merge held columns when both a previous grid and a hold mask exist. -/
def spinGrid (model : SlotModel) (previousGrid : Option Grid) (heldReels : Option (List Bool))
    (ovHitRate ovBonusFreq : Option ℚ) (rng : Rng) : Grid × Rng :=
  let next := model.spin ovHitRate ovBonusFreq rng
  match previousGrid, heldReels with
  | some prev, some held => (composeHeldGo prev held 0 next.1, next.2)
  | _, _ => next

/-! Bonus accounting (bonus.ts) and the scene's per-round award
composition. -/

/-- bonus.ts shouldTriggerBonus. -/
def shouldTriggerBonus (scatterCount : ℕ) (m : EnvMathSpec) : Bool :=
  m.bonusEnabled && decide (m.bonusTriggerCount ≤ (scatterCount : ℚ))

/-- bonus.ts getBonusFreeSpinsAward. -/
def getBonusFreeSpinsAward (scatterCount : ℕ) (m : EnvMathSpec) : ℚ :=
  if shouldTriggerBonus scatterCount m then m.freeSpinsAward else 0

/-- bonus.ts getRetriggerFreeSpinsAward. -/
def getRetriggerFreeSpinsAward (scatterCount : ℕ) (m : EnvMathSpec) : ℚ :=
  if m.freeSpinsRetriggerEnabled = false then 0
  else if m.freeSpinsRetriggerCount ≤ (scatterCount : ℚ) then m.freeSpinsRetriggerAward
  else 0

/-- The round's credited free-spin award as composed in
SlotScene.startSpinFlow: the bonus award plus, only inside a free-spin
sequence, the retrigger award. -/
def roundFreeSpinAward (scatterCount : ℕ) (inFreeSpins : Bool) (m : EnvMathSpec) : ℚ :=
  getBonusFreeSpinsAward scatterCount m +
    (if inFreeSpins then getRetriggerFreeSpinsAward scatterCount m else 0)

/-! The generic whitelisted state machine (StateMachine.ts).  The stored
per-state callback hooks only produce side effects, so `set` additionally
returns the trace of hook invocations. -/

/-- A hook invocation of StateMachine.set. -/
inductive HookEvent (S : Type*)
  | exit (s : S)
  | enter (s : S)
deriving DecidableEq

/-- StateMachine.ts: a whitelist per state (a state absent from the map
has the empty whitelist) and the current state. -/
structure StateMachine (S : Type*) where
  allowed : S → List S
  state : S

/-- StateMachine.can: a self-transition is always allowed, anything else
must be whitelisted. -/
def StateMachine.can {S : Type*} [DecidableEq S] (mch : StateMachine S) (next : S) : Bool :=
  next == mch.state || (mch.allowed mch.state).contains next

/-- StateMachine.set: an unlisted request and a self-transition both
return early (no state change, no hooks); otherwise exit/enter hooks fire
around the state change. -/
def StateMachine.set {S : Type*} [DecidableEq S] (mch : StateMachine S) (next : S) :
    StateMachine S × List (HookEvent S) :=
  if mch.can next = false then (mch, [])
  else if next = mch.state then (mch, [])
  else ({ mch with state := next }, [.exit mch.state, .enter next])

/-! The slot scene's round logic (SlotScene): states, the spin-request
validation gate, and the next-spin hold-mask decision. -/

/-- The five round states. -/
inductive SlotState
  | IDLE | SPINNING | RESULT | BONUS | WIN_PRESENTATION
deriving DecidableEq, Repr

/-- The scene's transition whitelist. -/
def slotTransitions : SlotState → List SlotState
  | .IDLE => [.SPINNING]
  | .SPINNING => [.RESULT]
  | .RESULT => [.BONUS, .WIN_PRESENTATION, .IDLE]
  | .BONUS => [.WIN_PRESENTATION]
  | .WIN_PRESENTATION => [.IDLE, .SPINNING]

/-- The session fields of SlotScene mutated by a spin request. -/
structure SessionState where
  balance : ℚ
  bet : ℚ
  freeSpins : ℚ
  totalSpins : ℚ
  lastWin : ℚ
  state : SlotState
  prevGrid : Option Grid
  heldReels : Option (List Bool)
deriving DecidableEq

/-- The scene's state machine over the current session state. -/
def sessionMachine (s : SessionState) : StateMachine SlotState :=
  ⟨slotTransitions, s.state⟩

/-- SlotScene.requestSpin up to the start of the spin flow: the guards,
the insufficient-balance gate, the free-spin / debit bookkeeping and the
transition to SPINNING.  The returned flag tells whether a spin began. -/
def requestSpin (s : SessionState) (forceFree : Bool) : SessionState × Bool :=
  if (sessionMachine s).can .SPINNING = false then (s, false)
  else if s.state ≠ .IDLE then (s, false)
  else
    let isFreeSpin := decide (0 < s.freeSpins)
    let isRespin := forceFree && decide (s.freeSpins ≤ 0)
    if (isFreeSpin || isRespin) = false ∧ s.balance < s.bet then (s, false)
    else
      let s1 :=
        if isFreeSpin then { s with freeSpins := s.freeSpins - 1 }
        else if isRespin = false then { s with balance := s.balance - s.bet }
        else s
      ({ s1 with totalSpins := s1.totalSpins + 1, lastWin := 0, state := .SPINNING }, true)

/-- Whether the spin just completed froze reel `r` (`freezeReels[r]`
truthy; an absent mask or index is falsy). -/
def freezeAt (freeze : Option (List Bool)) (r : ℕ) : Bool :=
  match freeze with
  | none => false
  | some f => f.getD r false

/-- The freeze-clearing loop of startSpinFlow: reels frozen on the spin
just completed are forced back to not-held. -/
def applyFreezeClearGo (f : List Bool) : ℕ → List Bool → List Bool
  | _, [] => []
  | i, b :: rest => (if f.getD i false then false else b) :: applyFreezeClearGo f (i + 1) rest

/-- Clear held flags at reels frozen this spin (no-op without a mask). -/
def applyFreezeClear (mask : List Bool) (freeze : Option (List Bool)) : List Bool :=
  match freeze with
  | none => mask
  | some f => applyFreezeClearGo f 0 mask

/-- The new stored hold mask after a round (SlotScene.startSpinFlow lines
589-602): all-false inside free spins, else the evaluator's derived mask
with the reels frozen this spin cleared. -/
def storedNextHold (g : Grid) (bet : ℚ) (m : EnvMathSpec) (inFreeSpins : Bool)
    (freeze : Option (List Bool)) : List Bool :=
  if inFreeSpins then List.replicate g.length false
  else applyFreezeClear (evaluateGrid g bet m inFreeSpins).heldReelsNext freeze

/-- No accidental 3-run from reel 0: no symbol other than the configured
scatter fills the first three reels of row ρ. -/
def noRunAt (m : EnvMathSpec) (g : Grid) (ρ : ℕ) : Prop :=
  ¬ ∃ s, s ≠ m.scatterSymbol ∧
    cellO g 0 ρ = some s ∧ cellO g 1 ρ = some s ∧ cellO g 2 ρ = some s

instance (m : EnvMathSpec) (g : Grid) (ρ : ℕ) : Decidable (noRunAt m g ρ) := by
  unfold noRunAt; infer_instance

/-! Concrete instances used by the closed theorems below. -/

/-- An env with a malformed (negative) weight for A. -/
def envBad : Env := fun k => if k = "W_A" then some "-1" else none

/-- An env declaring the single symbol K with a negative weight, making
the sampling loop exhaust on an in-range draw. -/
def envNeg : Env :=
  fun k => if k = "SYMBOLS" then some "K" else if k = "W_K" then some "-1" else none

/-- An env configuring CROWN as the scatter symbol. -/
def envCrown : Env := fun k => if k = "BONUS_SCATTER_SYMBOL" then some "CROWN" else none

/-- The spec resolved from `envCrown`. -/
def mCrown : EnvMathSpec := loadEnvMathSpec envCrown

/-- A 5x3 grid entirely of CROWN. -/
def gCrown : Grid := List.replicate 5 (List.replicate 3 SymbolId.CROWN)

/-- A 5x3 grid: SCATTER top-left, the middle row all A. -/
def gScat : Grid :=
  [[.SCATTER, .A, .K], [.T, .A, .Q], [.T, .A, .Q], [.T, .A, .Q], [.T, .A, .Q]]

/-- The single win line the evaluator records on `gScat` at bet 1 under
the default spec. -/
def wlMid : WinLine :=
  ⟨1, [1, 1, 1, 1, 1], 0, 4, some .A, 5, false, 8,
    [⟨0, some 1⟩, ⟨1, some 1⟩, ⟨2, some 1⟩, ⟨3, some 1⟩, ⟨4, some 1⟩]⟩

/-- An idle session with balance 5 below bet 10 and no free spins. -/
def sessReject : SessionState := ⟨5, 10, 0, 0, 0, .IDLE, none, none⟩

/-- The scene's state machine freshly started in IDLE. -/
def mchIdle : StateMachine SlotState := ⟨slotTransitions, .IDLE⟩

/-- A constant RNG stream of one-half draws. -/
def rngHalf : Rng := fun _ => 1/2

/-- The slot model over the default spec. -/
def modelDefault : SlotModel := ⟨defaultSpec⟩

/-- A previous 5x3 grid with a WILD on reel 0. -/
def prevWild : Grid :=
  [[.WILD, .K, .Q], [.A, .A, .A], [.K, .K, .K], [.Q, .Q, .Q], [.J, .J, .J]]

/-- Hold mask freezing only reel 0. -/
def heldFirst : List Bool := [true, false, false, false, false]

/-- A stopped 5x3 grid with WILD columns at reels 0 and 2. -/
def gWilds : Grid :=
  [[.WILD, .K, .Q], [.A, .A, .A], [.WILD, .K, .K], [.Q, .Q, .Q], [.J, .J, .J]]

/-- A 5x3 grid with an accidental J run of length 3 on the top row. -/
def gRun : Grid :=
  [[.J, .J, .J], [.J, .A, .A], [.J, .A, .A], [.A, .A, .A], [.A, .A, .A]]

/-! Supporting lemmas. -/

theorem evaluateGrid_heldReelsNext (g : Grid) (bet : ℚ) (m : EnvMathSpec) (f : Bool) :
    (evaluateGrid g bet m f).heldReelsNext =
      (List.range g.length).map (fun r =>
        (List.range ((g[0]?.getD []).length)).any (fun y => cellO g r y == some .WILD)) := rfl

theorem applyFreezeClearGo_getD (f : List Bool) (i : ℕ) (l : List Bool) (r : ℕ) :
    (applyFreezeClearGo f i l).getD r false =
      (if f.getD (i + r) false then false else l.getD r false) := by
  induction l generalizing i r with
  | nil => simp [applyFreezeClearGo, List.getD]
  | cons b bs ih =>
    cases r with
    | zero => simp [applyFreezeClearGo]
    | succ r' =>
      have hidx : i + (r' + 1) = (i + 1) + r' := by omega
      simp only [applyFreezeClearGo, List.getD_cons_succ, hidx]
      exact ih (i + 1) r'

theorem colHasWild_eq_contains (g : Grid) (r : ℕ) (hr : r < g.length)
    (hrect : ∀ col ∈ g, col.length = (g[0]?.getD []).length) :
    ((List.range ((g[0]?.getD []).length)).any (fun y => cellO g r y == some .WILD))
      = (g.getD r []).contains .WILD := by
  obtain ⟨col, hcol⟩ : ∃ col, g[r]? = some col := ⟨g[r], List.getElem?_eq_getElem hr⟩
  have hmem : col ∈ g := List.getElem?_mem hcol
  have hlen : col.length = (g[0]?.getD []).length := hrect col hmem
  have hget : g.getD r [] = col := by rw [List.getD_eq_getElem?_getD, hcol]; rfl
  have hcell : ∀ y, cellO g r y = col[y]? := fun y => by simp [cellO, hcol]
  rw [hget, ← hlen, Bool.eq_iff_iff]
  simp only [List.any_eq_true, List.mem_range, beq_iff_eq]
  constructor
  · rintro ⟨y, hy, hw⟩
    rw [hcell y] at hw
    exact List.elem_iff.mpr (List.getElem?_mem hw)
  · intro hcont
    obtain ⟨i, hi, hv⟩ := List.mem_iff_getElem.mp (List.elem_iff.mp hcont)
    exact ⟨i, hi, by rw [hcell i, List.getElem?_eq_getElem hi, hv]⟩

theorem composeHeldGo_getD (prev : Grid) (held : List Bool) (next : Grid) (i r : ℕ)
    (hr : r < next.length) :
    (composeHeldGo prev held i next).getD r [] =
      (if held.getD (i + r) false then prev.getD (i + r) [] else next.getD r []) := by
  induction next generalizing i r with
  | nil => simp at hr
  | cons col rest ih =>
    cases r with
    | zero => simp [composeHeldGo]
    | succ r' =>
      have hidx : i + (r' + 1) = (i + 1) + r' := by omega
      simp only [composeHeldGo, List.getD_cons_succ, hidx]
      exact ih (i + 1) r' (by simpa using Nat.lt_of_succ_lt_succ hr)

theorem evalFold (g : Grid) (bet : ℚ) (m : EnvMathSpec) :
    ∀ (lines : List Payline) (a : ℚ) (ws : List WinLine),
      (lines.foldl
        (fun acc line =>
          match evalLine g bet m line with
          | some wl => (acc.1 + wl.amount, acc.2 ++ [wl])
          | none => acc)
        (a, ws)) =
      (a + (((lines.filterMap (evalLine g bet m)).map WinLine.amount).sum),
        ws ++ lines.filterMap (evalLine g bet m)) := by
  intro lines
  induction lines with
  | nil => intro a ws; simp
  | cons line rest ih =>
    intro a ws
    cases h : evalLine g bet m line with
    | none => simp only [List.foldl_cons, h, List.filterMap_cons_none h, ih]
    | some wl =>
      simp only [List.foldl_cons, h, List.filterMap_cons_some h, ih]
      rw [List.map_cons, List.sum_cons, Prod.mk.injEq]
      exact ⟨by ring, by simp⟩

theorem evaluateGrid_winLines_eq (g : Grid) (bet : ℚ) (m : EnvMathSpec) (inFree : Bool) :
    (evaluateGrid g bet m inFree).winLines = PAYLINES_5X3.filterMap (evalLine g bet m) := by
  show (PAYLINES_5X3.foldl _ ((0 : ℚ), ([] : List WinLine))).2 = _
  rw [evalFold]
  simp

theorem evaluateGrid_winAmount_eq (g : Grid) (bet : ℚ) (m : EnvMathSpec) (inFree : Bool) :
    (evaluateGrid g bet m inFree).winAmount =
      jsRound (((((PAYLINES_5X3.filterMap (evalLine g bet m)).map WinLine.amount).sum) +
          (evaluateGrid g bet m inFree).scatterWinAmount) *
        (if inFree then m.freeSpinsWinMult else 1)) := by
  show jsRound (((PAYLINES_5X3.foldl _ ((0 : ℚ), ([] : List WinLine))).1 + _) * _) = _
  rw [evalFold]
  rw [zero_add]
  rfl

theorem findBaseAux_ne_scatter (sym : ℕ → Option SymbolId) :
    ∀ idxs, findBaseAux sym idxs ≠ some .SCATTER := by
  intro idxs
  induction idxs with
  | nil => simp [findBaseAux]
  | cons r rest ih =>
    simp only [findBaseAux]
    split_ifs with h1 h2
    · simp
    · exact h1
    · exact ih

theorem evalLine_inv (g : Grid) (bet : ℚ) (m : EnvMathSpec) (line : Payline) (wl : WinLine)
    (h : evalLine g bet m line = some wl) :
    wl.lineId = line.id ∧ wl.pathRows = line.rows ∧
      wl.amount = bet * lineMult m wl.symbol wl.count ∧
      wl.symbol ≠ some .SCATTER ∧
      lineSym g line.rows g.length 0 ≠ some .SCATTER ∧
      (∃ cnt, 3 ≤ cnt ∧ wl.count = min 5 cnt ∧
        scanLineAux (lineSym g line.rows g.length) line.rows wl.symbol m.wildSubstitutes
          (List.range g.length) = (cnt, wl.usedWild, wl.positions)) := by
  simp only [evalLine] at h
  split_ifs at h with h0 hwp hcnt hamt
  case _ =>
    injection h with h
    subst h
    refine ⟨rfl, rfl, rfl, ?_, h0, ⟨_, hcnt, rfl, rfl⟩⟩
    show lineBase g line ≠ some .SCATTER
    simp only [lineBase]
    split_ifs with hw
    · exact findBaseAux_ne_scatter _ _
    · exact h0

theorem scanLineAux_spec (sym : ℕ → Option SymbolId) (path : List ℕ) (base : Option SymbolId)
    (wildSub : Bool) (idxs : List ℕ) :
    (scanLineAux sym path base wildSub idxs).2.2 =
        (idxs.take (scanLineAux sym path base wildSub idxs).1).map
          (fun r => (⟨r, path[r]?⟩ : CellPos)) ∧
      (scanLineAux sym path base wildSub idxs).1 ≤ idxs.length ∧
      ∀ r ∈ idxs.take (scanLineAux sym path base wildSub idxs).1, sym r ≠ some .SCATTER := by
  induction idxs with
  | nil => simp [scanLineAux]
  | cons r rest ih =>
    simp only [scanLineAux]
    split_ifs with h1 h2 h3
    · simp
    · refine ⟨?_, ?_, ?_⟩
      · simp only [List.take_succ_cons, List.map_cons]
        rw [ih.1]
      · simpa using Nat.succ_le_succ ih.2.1
      · intro x hx
        rw [List.take_succ_cons, List.mem_cons] at hx
        rcases hx with rfl | hx
        · exact h1
        · exact ih.2.2 x hx
    · refine ⟨?_, ?_, ?_⟩
      · simp only [List.take_succ_cons, List.map_cons]
        rw [ih.1]
      · simpa using Nat.succ_le_succ ih.2.1
      · intro x hx
        rw [List.take_succ_cons, List.mem_cons] at hx
        rcases hx with rfl | hx
        · exact h1
        · exact ih.2.2 x hx
    · simp

theorem paylines_id_nodup : (PAYLINES_5X3.map Payline.id).Nodup := by decide

theorem pdns_ne (m : EnvMathSpec) (notThis : SymbolId) :
    ∀ (fuel : ℕ) (rng : Rng), (pickDifferentNonScatter m notThis fuel rng).1 ≠ notThis := by
  intro fuel
  induction fuel with
  | zero =>
    intro rng
    simp only [pickDifferentNonScatter]
    split_ifs with h
    · subst h; decide
    · exact fun hh => h hh.symm
  | succ n ih =>
    intro rng
    simp only [pickDifferentNonScatter]
    split_ifs with h
    · exact h.2
    · exact ih _

theorem setCell_length (g : Grid) (r y : ℕ) (s : SymbolId) :
    (setCell g r y s).length = g.length := by
  unfold setCell
  cases g[r]? <;> simp

theorem getElem?_pos_of_getElem?_eq_some {α : Type} (l : List α) (i : ℕ) (a : α)
    (h : l[i]? = some a) : i < l.length := by
  by_contra hn
  rw [List.getElem?_eq_none (Nat.le_of_not_lt hn)] at h
  cases h

theorem cellO_setCell_ne (g : Grid) (r y : ℕ) (s : SymbolId) (c ρ : ℕ)
    (h : c ≠ r ∨ ρ ≠ y) : cellO (setCell g r y s) c ρ = cellO g c ρ := by
  unfold setCell
  cases hcol : g[r]? with
  | none => rfl
  | some col =>
    rcases h with h | h
    · simp only [cellO, List.getElem?_set_ne (Ne.symm h)]
    · by_cases hc : c = r
      · subst hc
        have hr : c < g.length := getElem?_pos_of_getElem?_eq_some g c col hcol
        simp only [cellO, List.getElem?_set_self hr, hcol]
        show (col.set y s)[ρ]? = col[ρ]?
        exact List.getElem?_set_ne (Ne.symm h)
      · simp only [cellO, List.getElem?_set_ne (fun hh => hc hh.symm)]

theorem cellO_setCell_self (g : Grid) (r y : ℕ) (s v : SymbolId)
    (h : cellO g r y = some v) : cellO (setCell g r y s) r y = some s := by
  unfold setCell
  cases hcol : g[r]? with
  | none => rw [cellO, hcol] at h; cases h
  | some col =>
    rw [cellO, hcol] at h
    have h2 : col[y]? = some v := h
    have hy : y < col.length := getElem?_pos_of_getElem?_eq_some col y v h2
    have hr : r < g.length := getElem?_pos_of_getElem?_eq_some g r col hcol
    simp only [cellO, List.getElem?_set_self hr]
    show (col.set y s)[y]? = some s
    exact List.getElem?_set_self hy

theorem run_count_ge3_iff (g : Grid) (ρ : ℕ) (f : SymbolId)
    (h3 : 3 ≤ g.length) :
    3 ≤ 1 + matchRunLen g ρ f (List.range' 1 (g.length - 1)) ↔
      (cellO g 1 ρ = some f ∧ cellO g 2 ρ = some f) := by
  obtain ⟨k, hk⟩ := Nat.exists_eq_add_of_le h3
  have hlen : g.length - 1 = k + 1 + 1 := by omega
  rw [hlen, List.range'_succ, List.range'_succ]
  simp only [matchRunLen]
  split_ifs with h1 h2
  · exact ⟨fun _ => ⟨h1, h2⟩, fun _ => by omega⟩
  · exact ⟨fun h => by omega, fun hh => absurd hh.2 h2⟩
  · exact ⟨fun h => by omega, fun hh => absurd hh.1 h1⟩

theorem breakRow_length (m : EnvMathSpec) (g : Grid) (ρ : ℕ) (rng : Rng) :
    (breakRow m g ρ rng).1.length = g.length := by
  simp only [breakRow]
  split
  · rfl
  · split_ifs <;> simp [setCell_length]

theorem breakRow_cellO (m : EnvMathSpec) (g : Grid) (ρ : ℕ) (rng : Rng) (c ρ2 : ℕ)
    (h : c ≠ 2 ∨ ρ2 ≠ ρ) : cellO (breakRow m g ρ rng).1 c ρ2 = cellO g c ρ2 := by
  simp only [breakRow]
  split
  · rfl
  · split_ifs <;> first
      | rfl
      | exact cellO_setCell_ne g 2 ρ _ c ρ2 h

theorem breakRow_noRun (m : EnvMathSpec) (g : Grid) (ρ : ℕ) (rng : Rng)
    (h3 : 3 ≤ g.length) : noRunAt m (breakRow m g ρ rng).1 ρ := by
  simp only [breakRow, noRunAt]
  split
  case _ h0 =>
    rintro ⟨s, hs, h0', -, -⟩
    rw [h0] at h0'
    cases h0'
  case _ f h0 =>
    split_ifs with hf hcnt
    · rintro ⟨s, hs, h0', -, -⟩
      rw [h0] at h0'
      injection h0' with h0'
      exact hs (h0' ▸ hf)
    · rintro ⟨s, hs, h0', -, h2'⟩
      have hcells := (run_count_ge3_iff g ρ f h3).mp hcnt
      have hne := pdns_ne m f 20 rng
      have hset0 : cellO (setCell g 2 ρ (pickDifferentNonScatter m f 20 rng).1) 0 ρ
          = cellO g 0 ρ := cellO_setCell_ne _ _ _ _ _ _ (Or.inl (by decide))
      rw [hset0, h0] at h0'
      injection h0' with h0'
      subst h0'
      have hset2 : cellO (setCell g 2 ρ (pickDifferentNonScatter m f 20 rng).1) 2 ρ
          = some (pickDifferentNonScatter m f 20 rng).1 :=
        cellO_setCell_self g 2 ρ _ f hcells.2
      rw [hset2] at h2'
      injection h2' with h2'
      exact hne h2'
    · rintro ⟨s, hs, h0', h1', h2'⟩
      rw [h0] at h0'
      injection h0' with h0'
      subst h0'
      exact hcnt ((run_count_ge3_iff g ρ f h3).mpr ⟨h1', h2'⟩)

theorem breakRowsGo_cellO (m : EnvMathSpec) (rs : List ℕ) :
    ∀ (g : Grid) (rng : Rng) (c ρ : ℕ), (c ≠ 2 ∨ ρ ∉ rs) →
      cellO (breakRowsGo m rs g rng).1 c ρ = cellO g c ρ := by
  induction rs with
  | nil => intro g rng c ρ _; rfl
  | cons ρ2 rest ih =>
    intro g rng c ρ h
    simp only [breakRowsGo]
    have hrest : c ≠ 2 ∨ ρ ∉ rest := by
      rcases h with h | h
      · exact Or.inl h
      · exact Or.inr (fun hh => h (List.mem_cons_of_mem _ hh))
    have hhead : c ≠ 2 ∨ ρ ≠ ρ2 := by
      rcases h with h | h
      · exact Or.inl h
      · exact Or.inr (fun hh => h (hh ▸ List.mem_cons_self _ _))
    rw [ih _ _ _ _ hrest, breakRow_cellO _ _ _ _ _ _ hhead]

theorem breakRowsGo_noRun (m : EnvMathSpec) (rs : List ℕ) :
    ∀ (g : Grid) (rng : Rng), rs.Nodup → 3 ≤ g.length → ∀ ρ ∈ rs,
      noRunAt m (breakRowsGo m rs g rng).1 ρ := by
  induction rs with
  | nil => intro g rng _ _ ρ hρ; cases hρ
  | cons ρ2 rest ih =>
    intro g rng hnd h3 ρ hρ
    simp only [breakRowsGo]
    rcases List.mem_cons.mp hρ with rfl | hmem
    · have hP : noRunAt m (breakRow m g ρ rng).1 ρ := breakRow_noRun m g ρ rng h3
      have hni : ρ ∉ rest := (List.nodup_cons.mp hnd).1
      rintro ⟨s, hs, h0, h1, h2⟩
      refine hP ⟨s, hs, ?_, ?_, ?_⟩
      · rw [← breakRowsGo_cellO m rest _ _ 0 ρ (Or.inl (by decide))]; exact h0
      · rw [← breakRowsGo_cellO m rest _ _ 1 ρ (Or.inl (by decide))]; exact h1
      · rw [← breakRowsGo_cellO m rest _ _ 2 ρ (Or.inr hni)]; exact h2
    · have h3' : 3 ≤ (breakRow m g ρ2 rng).1.length := by rw [breakRow_length]; exact h3
      exact ih _ _ (List.nodup_cons.mp hnd).2 h3' ρ hmem

/-! Claim theorems and their witnesses. -/

/-- C3: in IDLE with zero free spins, no forced respin and balance below
the bet, a spin request is rejected with the session unchanged — nothing
debited, counts unchanged, state still IDLE, and no spin begins. -/
theorem requestSpin_insufficientBalance_rejected (s : SessionState)
    (h1 : s.state = .IDLE) (h2 : s.freeSpins = 0) (h3 : s.balance < s.bet) :
    requestSpin s false = (s, false) := by
  simp only [requestSpin, sessionMachine, StateMachine.can, h1, h2]
  norm_num [slotTransitions]
  exact h3

/-- C3 witness: the rejection at a concrete session (balance 5, bet 10). -/
theorem requestSpin_insufficientBalance_rejected_inst :
    requestSpin sessReject false = (sessReject, false) :=
  requestSpin_insufficientBalance_rejected sessReject (by decide) (by decide) (by decide)

/-- C6: the round's free-spin award is the bonus award (when enabled and
the scatter count reaches the trigger) plus, only inside a free-spin
sequence, the retrigger award (when enabled and the count reaches the
retrigger threshold); the two are additive. -/
theorem roundFreeSpinAward_spec (sc : ℕ) (inFree : Bool) (m : EnvMathSpec) :
    roundFreeSpinAward sc inFree m =
      (if m.bonusEnabled = true ∧ m.bonusTriggerCount ≤ (sc : ℚ) then m.freeSpinsAward else 0) +
        (if inFree = true ∧ m.freeSpinsRetriggerEnabled = true ∧
            m.freeSpinsRetriggerCount ≤ (sc : ℚ) then m.freeSpinsRetriggerAward else 0) := by
  unfold roundFreeSpinAward getBonusFreeSpinsAward getRetriggerFreeSpinsAward shouldTriggerBonus
  cases hb : m.bonusEnabled <;> cases hf : inFree <;> cases hr : m.freeSpinsRetriggerEnabled <;>
    split_ifs <;> simp_all

/-- C7: a request targeting the current state is a no-op success (no
hooks), an unlisted target is silently ignored (no hooks), and any state
change is along a whitelisted edge to the requested target. -/
theorem stateMachine_set_spec {S : Type} [DecidableEq S] (mch : StateMachine S) (t : S) :
    (t = mch.state → mch.set t = (mch, [])) ∧
      (t ≠ mch.state → t ∉ mch.allowed mch.state → mch.set t = (mch, [])) ∧
      ((mch.set t).1.state ≠ mch.state →
        t ∈ mch.allowed mch.state ∧ (mch.set t).1.state = t ∧
          (mch.set t).2 = [.exit mch.state, .enter t]) := by
  rcases Bool.eq_false_or_eq_true (t == mch.state || (mch.allowed mch.state).contains t)
    with hc | hc
  case inr =>
    have hset : mch.set t = (mch, []) := by
      unfold StateMachine.set StateMachine.can
      rw [if_pos hc]
    refine ⟨fun _ => hset, fun _ _ => hset, fun h => ?_⟩
    rw [hset] at h
    exact absurd rfl h
  case inl =>
    by_cases ht : t = mch.state
    · have hset : mch.set t = (mch, []) := by
        unfold StateMachine.set StateMachine.can
        rw [if_neg (by rw [hc]; decide), if_pos ht]
      refine ⟨fun _ => hset, fun h1 _ => absurd ht h1, fun h => ?_⟩
      rw [hset] at h
      exact absurd rfl h
    · have hmem : t ∈ mch.allowed mch.state := by
        rcases Bool.or_eq_true_iff.mp hc with hl | hr
        · exact absurd (by simpa using hl) ht
        · exact List.elem_iff.mp hr
      have hset : mch.set t =
          ({ mch with state := t }, [.exit mch.state, .enter t]) := by
        unfold StateMachine.set StateMachine.can
        rw [if_neg (by rw [hc]; decide), if_neg ht]
      refine ⟨fun h => absurd h ht, fun _ h2 => absurd hmem h2, fun _ => ?_⟩
      rw [hset]
      exact ⟨hmem, rfl, rfl⟩

/-- C7 witness: on the scene's machine in IDLE, requesting IDLE is a
no-op with no hooks, and requesting RESULT (unlisted) is ignored. -/
theorem stateMachine_set_spec_inst :
    mchIdle.set .IDLE = (mchIdle, []) ∧ mchIdle.set .RESULT = (mchIdle, []) :=
  ⟨(stateMachine_set_spec mchIdle .IDLE).1 rfl,
    (stateMachine_set_spec mchIdle .RESULT).2.1 (by decide) (by decide)⟩

/-- C8 counterexample: the resolver does not enforce the stated invariant
for every raw input — a configured weight of "-1" for A resolves to a
negative weight. -/
theorem loadEnvMathSpec_invariant_violated :
    ¬ specMathInvariant (loadEnvMathSpec envBad) := by decide

/-- C8 (amended): resolution is total (never raises), and the spec
resolved from entirely missing input — all defaults — satisfies the
invariant. -/
theorem loadEnvMathSpec_default_invariant : specMathInvariant defaultSpec := by decide

/-- C9 counterexample: with declared symbols [K] and weight −1 (as the
tolerant resolver permits) and the in-range draw one-half, the
subtraction loop exhausts, yet the picker returns A, not the last
declared symbol K. -/
theorem pickWeightedSymbol_fallback_not_last :
    (0:ℚ) ≤ 1/2 ∧ (1/2:ℚ) < 1 ∧
      pickLoop (loadEnvMathSpec envNeg).weights (loadEnvMathSpec envNeg).symbols
        ((1/2) * totalWeight (loadEnvMathSpec envNeg)) = none ∧
      (loadEnvMathSpec envNeg).symbols.getLast? = some .K ∧
      pickWeightedSymbolCore (loadEnvMathSpec envNeg) (1/2) = .A ∧
      SymbolId.A ≠ SymbolId.K := by decide

/-- C9 (amended): whenever the subtraction loop exhausts the declared
symbols without the remainder reaching zero, the picker returns the fixed
fallback symbol A. -/
theorem pickWeightedSymbol_fallback_A (m : EnvMathSpec) (u : ℚ)
    (h : pickLoop m.weights m.symbols (u * totalWeight m) = none) :
    pickWeightedSymbolCore m u = .A := by
  unfold pickWeightedSymbolCore
  rw [h]
  rfl

/-- C9 witness: the fallback at the concrete exhausting input. -/
theorem pickWeightedSymbol_fallback_A_inst :
    pickWeightedSymbolCore (loadEnvMathSpec envNeg) (1/2) = .A :=
  pickWeightedSymbol_fallback_A (loadEnvMathSpec envNeg) (1/2) (by decide)

/-- C1: after each completed round the stored hold mask for the next
spin is all-false inside a free-spin sequence, and otherwise marks reel r
exactly when the stopped grid's column r contains a WILD and reel r was
not itself frozen on the spin just completed. -/
theorem storedNextHold_spec (g : Grid) (bet : ℚ) (m : EnvMathSpec) (inFree : Bool)
    (freeze : Option (List Bool)) (r : ℕ) (hr : r < g.length)
    (hrect : ∀ col ∈ g, col.length = (g[0]?.getD []).length) :
    (storedNextHold g bet m inFree freeze).getD r false =
      (!inFree && (g.getD r []).contains .WILD && !freezeAt freeze r) := by
  cases inFree with
  | true =>
    simp [storedNextHold, List.getD_eq_getElem?_getD, List.getElem?_replicate, hr]
  | false =>
    have hmask : (evaluateGrid g bet m false).heldReelsNext.getD r false
        = (g.getD r []).contains .WILD := by
      rw [evaluateGrid_heldReelsNext, List.getD_eq_getElem?_getD, List.getElem?_map]
      have hrg : (List.range g.length)[r]? = some r := by simp [List.getElem?_range, hr]
      rw [hrg]
      simpa using colHasWild_eq_contains g r hr hrect
    cases freeze with
    | none =>
      simp only [storedNextHold, if_neg (by simp : ¬ (false : Bool) = true),
        applyFreezeClear, freezeAt, Bool.not_false, Bool.and_true, Bool.true_and]
      exact hmask
    | some f =>
      simp only [storedNextHold, if_neg (by simp : ¬ (false : Bool) = true), applyFreezeClear,
        freezeAt, Bool.not_false, Bool.true_and]
      rw [applyFreezeClearGo_getD]
      simp only [Nat.zero_add]
      cases hf : f.getD r false with
      | true => simp
      | false => simpa using hmask

/-- C1 witness: the characterization at a concrete stopped grid with a
WILD on frozen reel 0. -/
theorem storedNextHold_spec_inst :
    (storedNextHold gWilds 1 defaultSpec false (some heldFirst)).getD 0 false =
      (!false && (gWilds.getD 0 []).contains .WILD && !freezeAt (some heldFirst) 0) :=
  storedNextHold_spec gWilds 1 defaultSpec false (some heldFirst) 0 (by decide) (by decide)

/-- C2 counterexample: with CROWN configured as the scatter symbol, an
all-CROWN grid produces a win line on the payline whose leftmost cell is
the configured scatter, with configured-scatter cells among its
positions — the configured scatter participates in line matching. -/
theorem evaluateGrid_configScatter_participates :
    mCrown.scatterSymbol = .CROWN ∧
      cellO gCrown 0 1 = some mCrown.scatterSymbol ∧
      ∃ wl ∈ (evaluateGrid gCrown 1 mCrown false).winLines,
        wl.lineId = 1 ∧ ∃ p ∈ wl.positions, posCell gCrown p = some mCrown.scatterSymbol := by
  decide

/-- C2 (amended): a cell equal to the literal SCATTER id never matches
and never substitutes in a payline scan — it stops the scan, appears in
no win line's positions, and a payline whose leftmost cell is literal
SCATTER produces no win line.  (Line evaluation breaks on the literal
SCATTER id, not on the configured scatter symbol.) -/
theorem evaluateGrid_literalScatter_isolation (g : Grid) (bet : ℚ) (m : EnvMathSpec)
    (inFree : Bool) :
    (∀ wl ∈ (evaluateGrid g bet m inFree).winLines,
      (∀ p ∈ wl.positions, posCell g p ≠ some .SCATTER) ∧
      ∀ r < wl.count, lineSym g wl.pathRows g.length r ≠ some .SCATTER) ∧
    (∀ line ∈ PAYLINES_5X3, lineSym g line.rows g.length 0 = some .SCATTER →
      ∀ wl ∈ (evaluateGrid g bet m inFree).winLines, wl.lineId ≠ line.id) := by
  constructor
  · intro wl hwl
    rw [evaluateGrid_winLines_eq] at hwl
    obtain ⟨line, hline, hev⟩ := List.mem_filterMap.mp hwl
    obtain ⟨hid, hpath, hamt, hbase, hs0, cnt, hcnt3, hc, hscan⟩ := evalLine_inv g bet m line wl hev
    have hspec := scanLineAux_spec (lineSym g line.rows g.length) line.rows wl.symbol
      m.wildSubstitutes (List.range g.length)
    rw [hscan] at hspec
    have hpos : wl.positions =
        ((List.range g.length).take cnt).map (fun r => (⟨r, line.rows[r]?⟩ : CellPos)) :=
      hspec.1
    have hle : cnt ≤ g.length := by simpa using hspec.2.1
    have hsc : ∀ r ∈ (List.range g.length).take cnt,
        lineSym g line.rows g.length r ≠ some .SCATTER := hspec.2.2
    have htake : (List.range g.length).take cnt = List.range cnt := by
      rw [List.take_range, Nat.min_eq_left hle]
    rw [htake] at hpos hsc
    constructor
    · intro p hp
      rw [hpos, List.mem_map] at hp
      obtain ⟨r, hr, rfl⟩ := hp
      rw [List.mem_range] at hr
      have hrl : r < g.length := lt_of_lt_of_le hr hle
      have := hsc r (by rwa [List.mem_range])
      rw [lineSym, if_pos hrl] at this
      exact this
    · intro r hr
      rw [hc] at hr
      have hrc : r < cnt := lt_of_lt_of_le hr (Nat.min_le_right 5 cnt)
      rw [hpath]
      exact hsc r (by rwa [List.mem_range])
  · intro line hline hsc wl hwl hid
    rw [evaluateGrid_winLines_eq] at hwl
    obtain ⟨line2, hline2, hev⟩ := List.mem_filterMap.mp hwl
    obtain ⟨hid2, _, _, _, hs0, _⟩ := evalLine_inv g bet m line2 wl hev
    have : line2 = line :=
      List.inj_on_of_nodup_map paylines_id_nodup hline2 hline (by rw [← hid2, hid])
    rw [this] at hs0
    exact hs0 hsc

/-- C2 witness: the isolation at a concrete grid with a SCATTER top-left
cell and a middle-row win. -/
theorem evaluateGrid_literalScatter_isolation_inst :
    posCell gScat ⟨0, some 1⟩ ≠ some SymbolId.SCATTER ∧ wlMid.lineId ≠ 2 :=
  ⟨((evaluateGrid_literalScatter_isolation gScat 1 defaultSpec false).1 wlMid (by decide)).1
      ⟨0, some 1⟩ (by decide),
    (evaluateGrid_literalScatter_isolation gScat 1 defaultSpec false).2 ⟨2, [0, 0, 0, 0, 0]⟩
      (by decide) (by decide) wlMid (by decide)⟩

/-- C4: the returned total win is the JS rounding of (sum of recorded
line amounts + scatter win) times the free-spin multiplier, with rounding
applied exactly once to the combined total; each recorded line amount is
the exact unrounded product bet times paytable multiplier. -/
theorem evaluateGrid_totalWin_roundedOnce (g : Grid) (bet : ℚ) (m : EnvMathSpec) (inFree : Bool) :
    (evaluateGrid g bet m inFree).winAmount =
      jsRound ((((evaluateGrid g bet m inFree).winLines.map WinLine.amount).sum +
          (evaluateGrid g bet m inFree).scatterWinAmount) *
        (if inFree then m.freeSpinsWinMult else 1)) ∧
    ∀ wl ∈ (evaluateGrid g bet m inFree).winLines,
      wl.amount = bet * lineMult m wl.symbol wl.count := by
  constructor
  · rw [evaluateGrid_winAmount_eq, evaluateGrid_winLines_eq]
  · intro wl hwl
    rw [evaluateGrid_winLines_eq] at hwl
    obtain ⟨line, hline, h⟩ := List.mem_filterMap.mp hwl
    exact (evalLine_inv g bet m line wl h).2.2.1

/-- C4 witness: the recorded line amount at a concrete evaluated grid. -/
theorem evaluateGrid_totalWin_roundedOnce_inst :
    wlMid.amount = 1 * lineMult defaultSpec wlMid.symbol wlMid.count :=
  (evaluateGrid_totalWin_roundedOnce gScat 1 defaultSpec false).2 wlMid (by decide)

/-- C5: the composer consumes the generator's RNG in every case; with no
previous grid or mask the fresh grid is returned unchanged; otherwise
each held reel takes the previous grid's column and each other reel the
fresh one. -/
theorem spinGrid_compose_spec (model : SlotModel) (previousGrid : Option Grid)
    (heldReels : Option (List Bool)) (ovHitRate ovBonusFreq : Option ℚ) (rng : Rng) :
    (spinGrid model previousGrid heldReels ovHitRate ovBonusFreq rng).2 =
        (model.spin ovHitRate ovBonusFreq rng).2 ∧
      ((previousGrid = none ∨ heldReels = none) →
        (spinGrid model previousGrid heldReels ovHitRate ovBonusFreq rng).1 =
          (model.spin ovHitRate ovBonusFreq rng).1) ∧
      (∀ prev held, previousGrid = some prev → heldReels = some held →
        ∀ r, r < (model.spin ovHitRate ovBonusFreq rng).1.length →
          (held.getD r false = true →
            (spinGrid model previousGrid heldReels ovHitRate ovBonusFreq rng).1.getD r [] =
              prev.getD r []) ∧
          (held.getD r false = false →
            (spinGrid model previousGrid heldReels ovHitRate ovBonusFreq rng).1.getD r [] =
              (model.spin ovHitRate ovBonusFreq rng).1.getD r [])) := by
  cases previousGrid with
  | none =>
    refine ⟨rfl, fun _ => rfl, fun prev held hp => by cases hp⟩
  | some prev =>
    cases heldReels with
    | none =>
      refine ⟨rfl, fun _ => rfl, fun prev' held hp hh => by cases hh⟩
    | some held =>
      refine ⟨rfl, ?_, ?_⟩
      · intro h
        rcases h with h | h <;> cases h
      rintro prev2 held2 hp hh r hr
      obtain rfl : prev2 = prev := by injection hp with h; exact h.symm
      obtain rfl : held2 = held := by injection hh with h; exact h.symm
      constructor
      · intro hheld
        show (composeHeldGo prev2 held2 0 (model.spin ovHitRate ovBonusFreq rng).1).getD r []
          = prev2.getD r []
        rw [composeHeldGo_getD _ _ _ 0 r hr]
        simp only [Nat.zero_add, hheld]
        simp
      · intro hheld
        show (composeHeldGo prev2 held2 0 (model.spin ovHitRate ovBonusFreq rng).1).getD r []
          = (model.spin ovHitRate ovBonusFreq rng).1.getD r []
        rw [composeHeldGo_getD _ _ _ 0 r hr]
        simp only [Nat.zero_add, hheld]
        simp

/-- C5 witness: the held column and the null-mask passthrough at
concrete inputs. -/
theorem spinGrid_compose_spec_inst :
    (spinGrid modelDefault (some prevWild) (some heldFirst) none none rngHalf).1.getD 0 [] =
        prevWild.getD 0 [] ∧
      (spinGrid modelDefault none none none none rngHalf).1 =
        (modelDefault.spin none none rngHalf).1 :=
  ⟨((spinGrid_compose_spec modelDefault (some prevWild) (some heldFirst) none none
      rngHalf).2.2 prevWild heldFirst rfl rfl 0 (by decide)).1 (by decide),
    (spinGrid_compose_spec modelDefault none none none none rngHalf).2.1 (Or.inl rfl)⟩

/-- C10: after the accidental-win-breaking pass on a grid with at least
3 reels, no row starts at reel 0 with three cells of one non-scatter
symbol; a row that had such a run has its reel-2 cell rewritten to a
different symbol, and the replacement picker never returns its excluded
symbol, even on fallback. -/
theorem breakAccidentalWins_breaks_runs (m : EnvMathSpec) (g : Grid) (rng : Rng)
    (h3 : 3 ≤ g.length) :
    (∀ ρ < (g[0]?.getD []).length, noRunAt m (breakAccidentalWins m g rng).1 ρ) ∧
      (∀ ρ, ρ < (g[0]?.getD []).length → ∀ s, s ≠ m.scatterSymbol →
        cellO g 0 ρ = some s → cellO g 1 ρ = some s → cellO g 2 ρ = some s →
        cellO (breakAccidentalWins m g rng).1 2 ρ ≠ some s) ∧
      (∀ notThis fuel rng2, (pickDifferentNonScatter m notThis fuel rng2).1 ≠ notThis) := by
  refine ⟨?_, ?_, fun notThis fuel rng2 => pdns_ne m notThis fuel rng2⟩
  · intro ρ hρ
    exact breakRowsGo_noRun m (List.range ((g[0]?.getD []).length)) g rng
      (List.nodup_range _) h3 ρ (List.mem_range.mpr hρ)
  · intro ρ hρ s hs h0 h1 h2 h2'
    have hnr := breakRowsGo_noRun m (List.range ((g[0]?.getD []).length)) g rng
      (List.nodup_range _) h3 ρ (List.mem_range.mpr hρ)
    refine hnr ⟨s, hs, ?_, ?_, h2'⟩
    · rw [breakRowsGo_cellO m _ _ _ 0 ρ (Or.inl (by decide))]; exact h0
    · rw [breakRowsGo_cellO m _ _ _ 1 ρ (Or.inl (by decide))]; exact h1

/-- C10 witness: the broken run and the picker guarantee at a concrete
grid with a J run. -/
theorem breakAccidentalWins_breaks_runs_inst :
    cellO (breakAccidentalWins defaultSpec gRun rngHalf).1 2 0 ≠ some SymbolId.J ∧
      (pickDifferentNonScatter defaultSpec .A 20 rngHalf).1 ≠ .A :=
  ⟨(breakAccidentalWins_breaks_runs defaultSpec gRun rngHalf (by decide)).2.1 0 (by decide)
      .J (by decide) (by decide) (by decide) (by decide),
    (breakAccidentalWins_breaks_runs defaultSpec gRun rngHalf (by decide)).2.2 .A 20 rngHalf⟩

end Slot
